import Mathlib

/-!
Shallow embedding of the dnsredir CoreDNS plugin core (dnsredir.go):
request routing (match), the ServeDNS dispatch and retry loop,
health-check escalation (healthCheck), TTL rewriting
(rewriteToMinimalTTLs) and the initial-population latch
(urlInitialInProgress).

External collaborators (the dns message codec, the transport layer, the
pool internals) enter the model as oracles carried in an environment
record: Select results are indexed by the Select call count, Exchange
results by the global Exchange call count, and reply validation
(request.Request.Match) is an oracle predicate on the reply.  Wall-clock
time is explicit: each Exchange attempt advances the clock by the
duration recorded in its oracle result; all other operations are treated
as instantaneous, following the design assumption that Select and the
bookkeeping are fast and non-blocking.  Loops are driven by fuel: a
result of none means the code did not return within the given fuel.
-/

namespace Dnsredir

/-- One entry of the question section of a DNS message (external dns
library message model; only the fields the plugin reads). -/
structure Question where
  name : String
  qtype : Nat
deriving DecidableEq, Repr

/-- A resource record, restricted to the header fields dnsredir.go
touches: the record type and the TTL (a uint32, modelled as Nat). -/
structure RR where
  rrtype : Nat
  ttl : Nat
deriving DecidableEq, Repr

/-- A DNS message, restricted to the fields dnsredir.go touches. -/
structure Msg where
  id : Nat
  question : List Question
  answer : List RR
  ns : List RR
  extra : List RR
  truncated : Bool
  response : Bool
  rcode : Nat
deriving DecidableEq, Repr

/-- The error values the dispatch loop distinguishes: the sentinel
errCachedConnClosed, the sentinel errNoHealthy, and any other transport
error (represented by a code). -/
inductive GoErr where
  | cachedConnClosed
  | noHealthy
  | other (code : Nat)
deriving DecidableEq, Repr

/-- defaultTimeout from dnsredir.go: 15000 milliseconds. -/
def defaultTimeout : Nat := 15000

/-- defaultFailTimeout from dnsredir.go: 2000 milliseconds. -/
def defaultFailTimeout : Nat := 2000

/-- failureCheck from dnsredir.go: health check cadence 3. -/
def failureCheck : Int := 3

/-- dns.RcodeServerFailure. -/
def rcodeServerFailure : Nat := 2

/-- dns.RcodeFormatError. -/
def rcodeFormatError : Nat := 1

/-- dns.TypeOPT. -/
def typeOPT : Nat := 41

/-- Modelled from the spec: MinUint32 lives in the repository file
util.go, which is absent from src; the spec defines clamping as
min(ttl, ceiling), so MinUint32 is the minimum of two uint32 values. -/
def MinUint32 (a b : Nat) : Nat := min a b

/-- Modelled from the spec: removeTrailingDot lives in the repository
file util.go, which is absent from src; the spec says normalization
strips the trailing dot from the name. -/
def removeTrailingDot (s : String) : String :=
  if s.data.getLast? = some '.' then String.mk s.data.dropLast else s

/-- Go len() on a string: the UTF-8 byte length. -/
def goLen (s : String) : Nat := s.data.foldl (fun n c => n + c.utf8Size) 0

/-- The normalization step exactly as the spec words it: the trailing
dot is stripped when the name length exceeds 1 (byte length, as Go
len). Used to state the match contract. -/
def normalizeName (name : String) : String :=
  if 1 < goLen name then removeTrailingDot name else name

/-- Clamp one resource record TTL (the loop body of
rewriteToMinimalTTLs). -/
def clampRR (minimalTTL : Nat) (r : RR) : RR :=
  { r with ttl := MinUint32 r.ttl minimalTTL }

/-- rewriteToMinimalTTLs from dnsredir.go: clamp the TTL of every
record in the answer and authority sections, and in the additional
section except OPT records, whose TTL field carries extended rcode and
flags. -/
def rewriteToMinimalTTLs (reply : Msg) (minimalTTL : Nat) : Msg :=
  { reply with
    answer := reply.answer.map (clampRR minimalTTL)
    ns := reply.ns.map (clampRR minimalTTL)
    extra := reply.extra.map (fun r =>
      if r.rrtype ≠ typeOPT then clampRR minimalTTL r else r) }

/-- Wrapping 32-bit signed addition, as sync/atomic AddInt32 performs
on the int32 failure counter. -/
def int32add (a b : Int) : Int := (a + b + 2 ^ 31) % 2 ^ 32 - 2 ^ 31

/-- The observable effect of one effective healthCheck call: the new
counter value, the delay in milliseconds after which a decrement by
decAmount is scheduled, and whether the liveness probe Check() fires. -/
structure HCEffect where
  newFails : Int
  decDelayMs : Nat
  decAmount : Int
  checkTriggered : Bool
deriving DecidableEq, Repr

/-- healthCheck from dnsredir.go.  none models the early return (health
checking skipped when the pool has a zero check interval or a zero
max-fails threshold); otherwise the counter is atomically incremented,
a decrement by 1 is scheduled after defaultFailTimeout, and Check()
fires exactly when the post-increment value is divisible by
failureCheck (Go % on int32 is truncated division remainder, Int.tmod). -/
def healthCheck (checkInterval maxFails : Nat) (fails : Int) : Option HCEffect :=
  if checkInterval = 0 ∨ maxFails = 0 then none
  else
    let f := int32add fails 1
    some ⟨f, defaultFailTimeout, -1, decide (Int.tmod f failureCheck = 0)⟩

/-- urlInitialInProgress from dnsredir.go, as a pure function of the
process-wide initialFinished flag and the initialCount values of all
pools; returns (result, new flag value).  The fast path returns false
without scanning when the flag is set; otherwise any non-zero count
reports in-progress, and when all counts are zero the flag is set. -/
def urlInitialInProgress (initialFinished : Bool) (counts : List Int) : Bool × Bool :=
  if initialFinished then (false, true)
  else if counts.any (fun c => c != 0) then (true, false)
  else (false, true)

/-- The reloadableUpstream fields the dispatch loop reads.  The matcher
(Upstream.Match) is an oracle predicate on the normalized name. -/
structure Pool where
  Match : String → Bool
  maxFails : Nat
  checkInterval : Nat
  initialCount : Int

/-- Dnsredir.match from dnsredir.go: normalize the name (strip the
trailing dot when the byte length exceeds 1) and return the first pool
whose matcher accepts it.  The elapsed-latency return value is
observability only and is omitted. -/
def matchPools (pools : List Pool) (name : String) : Option Pool :=
  let n := if 1 < goLen name then removeTrailingDot name else name
  pools.find? (fun up => up.Match n)

/-- The transport flags of an upstream host that the dispatch loop
reads. -/
structure Transport where
  forceTcp : Bool
  preferUdp : Bool
deriving DecidableEq, Repr

/-- An upstream host: an identity (standing for the address) and the
transport flags.  The mutable failure counter lives in the dispatch
state, keyed by this identity. -/
structure UpstreamHost where
  id : Nat
  transport : Transport
deriving DecidableEq, Repr

/-- The outcome of one Exchange call as the oracle reports it: the
reply (none models a nil reply), the error (none models a nil error),
and the wall-clock duration of the attempt in milliseconds. -/
structure ExchResult where
  reply : Option Msg
  err : Option GoErr
  dur : Nat
deriving DecidableEq, Repr

/-- Oracles for the external collaborators: Select results by Select
call index, Exchange results by global Exchange call index, reply
validation (request.Request.Match) as a predicate on the reply, and the
result of the next plugin in the chain. -/
structure Env where
  sel : Nat → Option UpstreamHost
  exch : Nat → ExchResult
  stMatch : Msg → Bool
  nextCode : Nat
  nextErr : Option GoErr

/-- Modelled from the spec: dns.Msg.SetRcode of the external dns
library; the spec says the synthesized reply carries the original query
id and question together with the given rcode. -/
def setRcode (req : Msg) (rc : Nat) : Msg :=
  { id := req.id, question := req.question, answer := [], ns := [], extra := [],
    truncated := false, response := true, rcode := rc }

/-- The event trace of one ServeDNS run: Select results, the host of
each Exchange call, the hosts whose failure counter was incremented,
the scheduled asynchronous decrements (host, delay ms, amount), the
hosts on which Check() fires, the hosts for which the truncation
warning was logged, and the messages written to the response writer. -/
structure Trace where
  selects : List (Option Nat)
  exchanges : List Nat
  increments : List Nat
  scheduledDecs : List (Nat × Nat × Int)
  checks : List Nat
  warns : List Nat
  writes : List Msg
deriving DecidableEq, Repr

/-- The empty trace. -/
def Trace.empty : Trace := ⟨[], [], [], [], [], [], []⟩

/-- The value ServeDNS hands back to the plugin chain: a direct return
(code, error), a delegation to the next plugin (no zone matched), or a
panic (internal invariant violation). -/
inductive SDOut where
  | ret (code : Nat) (err : Option GoErr)
  | delegated (code : Nat) (err : Option GoErr)
  | panicked
deriving DecidableEq, Repr

/-- The result of a terminated ServeDNS run: the returned value, the
event trace, the final clock, the number of Select calls, the number of
Exchange calls, the final population flag, and the final value of the
upstreamErr variable. -/
structure RunRes where
  out : SDOut
  trace : Trace
  now : Nat
  selIdx : Nat
  exIdx : Nat
  flag : Bool
  lastErr : Option GoErr
deriving DecidableEq, Repr

/-- The mutable state of the dispatch loop: the clock, the Select and
Exchange call counters, the upstreamErr variable, the population flag,
the per-host failure counters, and the event trace so far. -/
structure LoopSt where
  now : Nat
  selIdx : Nat
  exIdx : Nat
  lastErr : Option GoErr
  flag : Bool
  fails : Nat → Int
  tr : Trace

/-- The condition under which the dispatch loop logs the truncation
warning: reply non-nil and truncated, transport does not force TCP and
prefers UDP. -/
def warnCond (reply : Option Msg) (tp : Transport) : Bool :=
  match reply with
  | some rep => rep.truncated && !tp.forceTcp && tp.preferUdp
  | none => false

/-- The inner exchange loop of ServeDNS: call Exchange, retry
unconditionally on errCachedConnClosed (no deadline check inside this
loop), otherwise perform the truncation warning check and exit with the
last observed reply and error.  Returns (clock, exchange counter,
reply, error, trace); none means the loop did not exit within the
fuel. -/
def innerLoop (env : Env) (host : UpstreamHost) :
    Nat → Nat → Nat → Trace → Option (Nat × Nat × Option Msg × Option GoErr × Trace)
  | 0, _, _, _ => none
  | fuel + 1, now, exIdx, tr =>
    let r := env.exch exIdx
    let tr1 : Trace := { tr with exchanges := tr.exchanges ++ [host.id] }
    let now1 := now + r.dur
    if r.err = some GoErr.cachedConnClosed then
      innerLoop env host fuel now1 (exIdx + 1) tr1
    else
      let tr2 : Trace :=
        if warnCond r.reply host.transport then
          { tr1 with warns := tr1.warns ++ [host.id] }
        else tr1
      some (now1, exIdx + 1, r.reply, r.err, tr2)

/-- The health-check escalation step of the dispatch loop, as performed
when Exchange failed and the pool has a non-zero max-fails threshold:
apply healthCheck to the failed host and record its effects in the
trace. -/
def hcApply (up : Pool) (host : UpstreamHost) (fails : Nat → Int) (tr : Trace) :
    (Nat → Int) × Trace :=
  match healthCheck up.checkInterval up.maxFails (fails host.id) with
  | none => (fails, tr)
  | some eff =>
    (fun i => if i = host.id then eff.newFails else fails i,
     { tr with
       increments := tr.increments ++ [host.id]
       scheduledDecs := tr.scheduledDecs ++ [(host.id, eff.decDelayMs, eff.decAmount)]
       checks := tr.checks ++ (if eff.checkTriggered then [host.id] else []) })

/-- The outer dispatch loop of ServeDNS.  While the clock is before the
deadline: Select a host (nil terminates with server failure and
errNoHealthy), run the inner exchange loop, on a transport error
escalate health checking (when max-fails is non-zero) and continue on
the next iteration, on success validate the reply (mismatch writes a
synthesized FORMERR reply and returns 0, nil), apply the TTL rewrite
exactly when urlInitialInProgress reports in-progress, write the reply
and return 0, nil.  When the loop exits on the deadline, return server
failure with the last observed error, or panic if none was recorded.
A nil reply together with a nil error panics at reply validation (nil
dereference in request.Request.Match). -/
def outerLoop (env : Env) (up : Pool) (counts : List Int) (req : Msg)
    (deadline : Nat) (minTTL : Nat) :
    Nat → LoopSt → Option RunRes
  | 0, _ => none
  | fuel + 1, st =>
    if st.now < deadline then
      match env.sel st.selIdx with
      | none =>
        some ⟨SDOut.ret rcodeServerFailure (some GoErr.noHealthy),
              { st.tr with selects := st.tr.selects ++ [none] },
              st.now, st.selIdx + 1, st.exIdx, st.flag, st.lastErr⟩
      | some host =>
        let trS : Trace := { st.tr with selects := st.tr.selects ++ [some host.id] }
        match innerLoop env host (fuel + 1) st.now st.exIdx trS with
        | none => none
        | some (now1, exIdx1, reply, err, tr1) =>
          match err with
          | some e =>
            let p :=
              if up.maxFails ≠ 0 then hcApply up host st.fails tr1 else (st.fails, tr1)
            outerLoop env up counts req deadline minTTL fuel
              { now := now1, selIdx := st.selIdx + 1, exIdx := exIdx1,
                lastErr := some e, flag := st.flag, fails := p.1, tr := p.2 }
          | none =>
            match reply with
            | none =>
              some ⟨SDOut.panicked, tr1, now1, st.selIdx + 1, exIdx1, st.flag, none⟩
            | some rep =>
              if env.stMatch rep then
                let q := urlInitialInProgress st.flag counts
                let rep1 := if q.1 then rewriteToMinimalTTLs rep minTTL else rep
                some ⟨SDOut.ret 0 none,
                      { tr1 with writes := tr1.writes ++ [rep1] },
                      now1, st.selIdx + 1, exIdx1, q.2, none⟩
              else
                some ⟨SDOut.ret 0 none,
                      { tr1 with writes := tr1.writes ++ [setRcode req rcodeFormatError] },
                      now1, st.selIdx + 1, exIdx1, st.flag, none⟩
    else
      match st.lastErr with
      | none => some ⟨SDOut.panicked, st.tr, st.now, st.selIdx, st.exIdx, st.flag, none⟩
      | some e =>
        some ⟨SDOut.ret rcodeServerFailure (some e), st.tr, st.now, st.selIdx, st.exIdx,
              st.flag, some e⟩

/-- state.Name(): the query name of the request ("." when the question
section is empty, as in the coredns request package). -/
def nameOf (req : Msg) : String :=
  match req.question with
  | [] => "."
  | q :: _ => q.name

/-- Dnsredir.ServeDNS: match the query name against the ordered pool
list; on no match delegate to the next plugin in the chain; on a match
run the dispatch loop with deadline entry time + defaultTimeout (entry
time taken as 0), initial population flag flag0 and initial per-host
failure counters fails0. -/
def serveDNS (pools : List Pool) (env : Env) (req : Msg) (minTTL : Nat)
    (flag0 : Bool) (fails0 : Nat → Int) (fuel : Nat) : Option RunRes :=
  match matchPools pools (nameOf req) with
  | none =>
    some ⟨SDOut.delegated env.nextCode env.nextErr, Trace.empty, 0, 0, 0, flag0, none⟩
  | some up =>
    outerLoop env up (pools.map (fun p => p.initialCount)) req defaultTimeout minTTL fuel
      { now := 0, selIdx := 0, exIdx := 0, lastErr := none, flag := flag0,
        fails := fails0, tr := Trace.empty }

/-- The per-host failure counter after n consecutive effective failures
on the sequential schedule of the spec scenario (each failure runs
healthCheck once; no decay decrement runs in between), starting from a
counter of 0. -/
def failsAfter (checkInterval maxFails : Nat) : Nat → Int
  | 0 => 0
  | n + 1 =>
    match healthCheck checkInterval maxFails (failsAfter checkInterval maxFails n) with
    | none => failsAfter checkInterval maxFails n
    | some eff => eff.newFails

/-- The run returns at all: some fuel makes ServeDNS produce a result.
Its negation states that ServeDNS never returns, whatever the fuel. -/
def Returns (pools : List Pool) (env : Env) (req : Msg) (minTTL : Nat)
    (flag0 : Bool) (fails0 : Nat → Int) : Prop :=
  ∃ fuel res, serveDNS pools env req minTTL flag0 fails0 fuel = some res

/-! Concrete instances used by witnesses and counterexamples. -/

/-- A request with a single question. -/
def reqEx : Msg := ⟨3, [⟨"example.org.", 1⟩], [], [], [], false, false, 0⟩

/-- A plain upstream reply to reqEx. -/
def repEx : Msg := ⟨3, [⟨"example.org.", 1⟩], [⟨1, 500⟩], [], [], false, true, 0⟩

/-- A truncated upstream reply. -/
def repTrunc : Msg := { repEx with truncated := true }

/-- A host with neither forceTcp nor preferUdp. -/
def hostPlain : UpstreamHost := ⟨7, ⟨false, false⟩⟩

/-- A host with preferUdp and not forceTcp. -/
def hostPreferUdp : UpstreamHost := ⟨8, ⟨false, true⟩⟩

/-- A pool that matches every name, with health checking enabled. -/
def poolAll : Pool := ⟨fun _ => true, 1, 1, 0⟩

/-- A pool that matches every name, max-fails 1 but zero check
interval. -/
def poolNoCheck : Pool := ⟨fun _ => true, 1, 0, 0⟩

/-- Environment whose Exchange always reports errCachedConnClosed, with
hosts always available. -/
def envClosedForever : Env :=
  ⟨fun _ => some hostPlain, fun _ => ⟨none, some GoErr.cachedConnClosed, 1⟩,
   fun _ => true, 0, none⟩

/-- Environment whose Exchange always fails with a generic transport
error taking 5000 ms per attempt, with hosts always available. -/
def envGenericFail : Env :=
  ⟨fun _ => some hostPlain, fun _ => ⟨none, some (GoErr.other 5), 5000⟩,
   fun _ => true, 0, none⟩

/-- Environment whose Exchange always fails with a generic transport
error taking 1 ms per attempt. -/
def envGenericFailFast : Env :=
  ⟨fun _ => some hostPlain, fun _ => ⟨none, some (GoErr.other 5), 1⟩,
   fun _ => true, 0, none⟩

/-- Environment: two closed-connection results, then success. -/
def envClosedTwice : Env :=
  ⟨fun _ => some hostPlain,
   fun n => if n < 2 then ⟨none, some GoErr.cachedConnClosed, 1⟩ else ⟨some repEx, none, 1⟩,
   fun _ => true, 0, none⟩

/-- Environment: immediate success whose reply fails validation. -/
def envMismatch : Env :=
  ⟨fun _ => some hostPlain, fun _ => ⟨some repEx, none, 1⟩, fun _ => false, 0, none⟩

/-- Environment: immediate success with a valid reply. -/
def envOk : Env :=
  ⟨fun _ => some hostPlain, fun _ => ⟨some repEx, none, 1⟩, fun _ => true, 0, none⟩

/-- Environment in which Select never finds a healthy host. -/
def envNoHost : Env := ⟨fun _ => none, fun _ => ⟨none, none, 0⟩, fun _ => true, 0, none⟩

/-- Environment: immediate success with a truncated reply, valid. -/
def envTrunc : Env :=
  ⟨fun _ => some hostPlain, fun _ => ⟨some repTrunc, none, 1⟩, fun _ => true, 0, none⟩

/-- Environment: truncated reply on a preferUdp host. -/
def envTruncPreferUdp : Env :=
  ⟨fun _ => some hostPreferUdp, fun _ => ⟨some repTrunc, none, 1⟩, fun _ => true, 0, none⟩

/-- A pool whose initial name-list population is still in progress. -/
def poolLoading : Pool := ⟨fun _ => true, 1, 1, 1⟩

/-- A pool whose matcher rejects every name. -/
def poolNever : Pool := ⟨fun _ => false, 1, 1, 0⟩

/-- First of two pools with overlapping (universal) matchers. -/
def poolFirst : Pool := ⟨fun _ => true, 1, 1, 0⟩

/-- Second of two pools with overlapping (universal) matchers. -/
def poolSecond : Pool := ⟨fun _ => true, 2, 2, 0⟩

/-- The TTL example of the spec: answers with TTLs 10, 500, 3600 and an
OPT record in the additional section. -/
def msgTTL : Msg := ⟨1, [], [⟨1, 10⟩, ⟨1, 500⟩, ⟨1, 3600⟩], [], [⟨41, 200⟩], false, true, 0⟩

/-! Helper lemmas. -/

/-- One non-retrying pass of the inner exchange loop: when the error is
not errCachedConnClosed the loop exits after this single attempt,
whatever the truncation flag, handing back the reply unchanged; the
truncation warning is appended exactly when warnCond holds. -/
theorem innerLoop_exit (env : Env) (host : UpstreamHost) (fuel now exIdx : Nat) (tr : Trace)
    (h : (env.exch exIdx).err ≠ some GoErr.cachedConnClosed) :
    innerLoop env host (fuel + 1) now exIdx tr =
      some (now + (env.exch exIdx).dur, exIdx + 1, (env.exch exIdx).reply, (env.exch exIdx).err,
        if warnCond (env.exch exIdx).reply host.transport then
          { tr with exchanges := tr.exchanges ++ [host.id], warns := tr.warns ++ [host.id] }
        else { tr with exchanges := tr.exchanges ++ [host.id] }) := by
  by_cases hw : warnCond (env.exch exIdx).reply host.transport
  · simp [innerLoop, h, hw]
  · simp [innerLoop, h, hw]

/-- One retrying pass of the inner exchange loop: an errCachedConnClosed
result loops again with the next exchange index. -/
theorem innerLoop_closed_step (env : Env) (host : UpstreamHost) (fuel now exIdx : Nat)
    (tr : Trace) (h : (env.exch exIdx).err = some GoErr.cachedConnClosed) :
    innerLoop env host (fuel + 1) now exIdx tr =
      innerLoop env host fuel (now + (env.exch exIdx).dur) (exIdx + 1)
        { tr with exchanges := tr.exchanges ++ [host.id] } := by
  simp [innerLoop, h]

/-- Mapping a TTL-nonincreasing function over a record list relates the
lists pointwise. -/
theorem forall2_ttl_le_map (l : List RR) (f : RR → RR) (h : ∀ r, (f r).ttl ≤ r.ttl) :
    List.Forall₂ (fun r s => s.ttl ≤ r.ttl) l (l.map f) := by
  induction l with
  | nil => simp
  | cons a t ih => exact List.Forall₂.cons (h a) ih

/-- Wrapping int32 addition of 1 is ordinary addition below the
overflow bound. -/
theorem int32add_one_of_lt (m : Int) (h0 : 0 ≤ m) (h : m + 1 < 2 ^ 31) :
    int32add m 1 = m + 1 := by
  unfold int32add
  omega

/-- The sequential failure counter equals the number of failures while
below the int32 overflow bound, when health checking is effective. -/
theorem failsAfter_eq (ci mf : Nat) (hci : ci ≠ 0) (hmf : mf ≠ 0) :
    ∀ n : Nat, n < 2 ^ 31 → failsAfter ci mf n = n := by
  intro n
  induction n with
  | zero => intro _; rfl
  | succ n ih =>
    intro hn
    have hn' : n < 2 ^ 31 := by omega
    have hrec := ih hn'
    simp only [failsAfter, healthCheck, hci, hmf, if_neg, or_self, ite_false]
    rw [hrec, int32add_one_of_lt (n : Int) (by positivity) (by exact_mod_cast hn)]
    push_cast
    ring

/-! Claim theorems. -/

/-- C8: the population-flag check is a one-way latch.  In one equation:
when the flag is already set the result is false and the flag stays set,
independently of the pool counters (no scan is needed, and a later
non-zero counter cannot change the outcome); when it is unset the check
reports in-progress exactly when some pool counter is non-zero, and sets
the flag exactly when all counters are zero.  The new flag value
f || !(any counter non-zero) is monotone in f, so no call ever resets
the flag. -/
theorem urlInitialInProgress_latch :
    ∀ (f : Bool) (counts : List Int),
      urlInitialInProgress f counts =
        ((!f) && counts.any (fun c => c != 0), f || !(counts.any (fun c => c != 0))) := by
  intro f counts
  cases f
  · cases h : counts.any (fun c => c != 0) <;> simp [urlInitialInProgress, h]
  · simp [urlInitialInProgress]

/-- C4 counterexample: a pool with max-fails 1 (> 0) but a zero check
interval.  Against a host that always fails with a generic transport
error, three failures happen (three exchanges on host 7), yet no
failure ever increments the failure counter (healthCheck returns at its
guard), contradicting the claim that with max-fails > 0 each failure
increments the counter by exactly 1. -/
theorem serveDNS_no_increment_zero_interval :
    (serveDNS [poolNoCheck] envGenericFail reqEx 5 true (fun _ => 0) 4).map
        (fun r => (r.trace.increments, r.trace.exchanges, r.out))
      = some ([], [7, 7, 7], SDOut.ret rcodeServerFailure (some (GoErr.other 5)))
      ∧ poolNoCheck.maxFails = 1 ∧ poolNoCheck.checkInterval = 0 := by
  exact ⟨by decide, rfl, rfl⟩

/-- C4 (amended): for a pool with max-fails > 0 and a non-zero check
interval, each generic exchange failure increments the failure counter
of the host by exactly 1 (wrapping int32 addition), schedules an
asynchronous decrement of the same counter by 1 after the fixed
2-second (2000 ms) fail timeout, and triggers the liveness probe
Check() exactly when the post-increment counter value is divisible by
3: on the sequential schedule starting from a zero counter, exactly
every 3rd failure. -/
theorem healthCheck_increment_and_cadence (ci mf : Nat) (f : Int) (n : Nat)
    (hci : ci ≠ 0) (hmf : mf ≠ 0) (hn : n < 2 ^ 31) :
    healthCheck ci mf f =
      some ⟨int32add f 1, defaultFailTimeout, -1,
            decide (Int.tmod (int32add f 1) failureCheck = 0)⟩ ∧
    defaultFailTimeout = 2000 ∧
    failsAfter ci mf n = n ∧
    (∀ k : Nat, 1 ≤ k → k ≤ n →
      (healthCheck ci mf (failsAfter ci mf (k - 1))).map (fun e => e.checkTriggered)
        = some (decide (3 ∣ k))) := by
  refine ⟨by simp [healthCheck, hci, hmf], rfl, failsAfter_eq ci mf hci hmf n hn, ?_⟩
  intro k h1 h2
  have hk1 : (k - 1 : Nat) < 2 ^ 31 := by omega
  rw [failsAfter_eq ci mf hci hmf _ hk1]
  simp only [healthCheck, hci, hmf, or_self, ite_false, Option.map_some]
  rw [int32add_one_of_lt ((k - 1 : Nat) : Int) (by positivity) (by omega)]
  have hcast : ((k - 1 : Nat) : Int) + 1 = (k : Int) := by omega
  rw [hcast]
  have htm : Int.tmod (k : Int) failureCheck = (k : Int) % 3 := by
    unfold failureCheck
    exact Int.tmod_eq_emod (by positivity) (by norm_num)
  rw [htm]
  simp only [Option.map_some', Option.some.injEq, decide_eq_decide]
  omega

/-- C4 witness: with check interval 1 and max-fails 1, after two
failures the counter is 2 and the 3rd failure triggers Check(). -/
theorem healthCheck_increment_and_cadence_witness :
    failsAfter 1 1 3 = 3 ∧
    (healthCheck 1 1 (failsAfter 1 1 2)).map (fun e => e.checkTriggered)
      = some (decide (3 ∣ 3)) := by
  have h := healthCheck_increment_and_cadence 1 1 0 3 (by decide) (by decide) (by decide)
  exact ⟨h.2.2.1, h.2.2.2 3 (by decide) (by decide)⟩

/-- C6: whenever the dispatch loop finds Select returning no host while
time remains before the deadline, ServeDNS terminates at once with
rcode server failure and the specific errNoHealthy error: it performs
no exchange, no retry, and the remaining deadline and fuel are not
consumed. -/
theorem serveDNS_noHealthy_hard_stop (env : Env) (up : Pool) (counts : List Int)
    (req : Msg) (deadline minTTL fuel : Nat) (st : LoopSt)
    (htime : st.now < deadline)
    (hsel : env.sel st.selIdx = none) :
    outerLoop env up counts req deadline minTTL (fuel + 1) st =
      some ⟨SDOut.ret rcodeServerFailure (some GoErr.noHealthy),
            { st.tr with selects := st.tr.selects ++ [none] },
            st.now, st.selIdx + 1, st.exIdx, st.flag, st.lastErr⟩ := by
  simp [outerLoop, htime, hsel]

/-- C6 witness: a concrete run in which Select immediately reports no
host, with 15000 ms of deadline remaining and plenty of fuel. -/
theorem serveDNS_noHealthy_hard_stop_witness :
    outerLoop envNoHost poolAll [0] reqEx defaultTimeout 5 (9 + 1)
        ⟨0, 0, 0, none, true, fun _ => 0, Trace.empty⟩ =
      some ⟨SDOut.ret rcodeServerFailure (some GoErr.noHealthy),
            { Trace.empty with selects := [none] }, 0, 1, 0, true, none⟩ := by
  have h := serveDNS_noHealthy_hard_stop envNoHost poolAll [0] reqEx defaultTimeout 5 9
    ⟨0, 0, 0, none, true, fun _ => 0, Trace.empty⟩ (by norm_num [defaultTimeout]) rfl
  simpa using h

/-- C3: when Exchange succeeds but the reply fails validation against
the original question, ServeDNS writes a synthesized reply carrying the
original query id and question with rcode FORMERR and returns at once
(return value 0, nil): exactly one Select and one Exchange happened, no
further retry or selection occurs, and no failure counter is
incremented. -/
theorem serveDNS_formerr_on_mismatch
    (pools : List Pool) (env : Env) (req : Msg) (minTTL : Nat) (flag0 : Bool)
    (fails0 : Nat → Int) (up : Pool) (host : UpstreamHost) (rep : Msg) (fuel : Nat)
    (hm : matchPools pools (nameOf req) = some up)
    (hsel : env.sel 0 = some host)
    (hrep : (env.exch 0).reply = some rep)
    (herr : (env.exch 0).err = none)
    (hmis : env.stMatch rep = false) :
    ∃ res, serveDNS pools env req minTTL flag0 fails0 (fuel + 1) = some res ∧
      res.out = SDOut.ret 0 none ∧
      res.trace.writes = [setRcode req rcodeFormatError] ∧
      (setRcode req rcodeFormatError).id = req.id ∧
      (setRcode req rcodeFormatError).question = req.question ∧
      (setRcode req rcodeFormatError).rcode = rcodeFormatError ∧
      res.trace.selects = [some host.id] ∧
      res.trace.exchanges = [host.id] ∧
      res.trace.increments = [] ∧ res.trace.checks = [] := by
  by_cases hw : warnCond (some rep) host.transport
  · simp [serveDNS, hm, outerLoop, innerLoop, hsel, herr, hrep, hmis, hw, defaultTimeout,
      Trace.empty, setRcode]
  · simp [serveDNS, hm, outerLoop, innerLoop, hsel, herr, hrep, hmis, hw, defaultTimeout,
      Trace.empty, setRcode]

/-- C3 witness: a concrete mismatching reply yields the synthesized
FORMERR write and return value (0, nil) after a single exchange. -/
theorem serveDNS_formerr_on_mismatch_witness :
    (serveDNS [poolAll] envMismatch reqEx 5 true (fun _ => 0) 1).map
        (fun r => (r.out, r.trace.writes, r.trace.exchanges, r.trace.increments))
      = some (SDOut.ret 0 none, [setRcode reqEx rcodeFormatError], [7], []) := by
  obtain ⟨res, hres, hout, hwr, _, _, _, _, hex, hinc, _⟩ :=
    serveDNS_formerr_on_mismatch [poolAll] envMismatch reqEx 5 true (fun _ => 0)
      poolAll hostPlain repEx 0 rfl rfl rfl rfl rfl
  rw [hres]
  simp [hout, hwr, hex, hinc, hostPlain]

/-- C7: the TTL rewrite clamps every answer and authority record TTL to
min(original, ceiling), clamps additional records except OPT-typed ones
(whose TTL field is left untouched regardless of the ceiling), never
raises any TTL; and during ServeDNS the rewrite is applied to a valid
delivered reply exactly when the population check reports in-progress. -/
theorem rewriteToMinimalTTLs_clamp
    (pools : List Pool) (env : Env) (req : Msg) (minTTL : Nat) (flag0 : Bool)
    (fails0 : Nat → Int) (up : Pool) (host : UpstreamHost) (rep : Msg) (fuel : Nat)
    (hm : matchPools pools (nameOf req) = some up)
    (hsel : env.sel 0 = some host)
    (hrep : (env.exch 0).reply = some rep)
    (herr : (env.exch 0).err = none)
    (hok : env.stMatch rep = true) :
    (∀ (reply : Msg) (C : Nat),
      (rewriteToMinimalTTLs reply C).answer
          = reply.answer.map (fun r => { r with ttl := min r.ttl C }) ∧
      (rewriteToMinimalTTLs reply C).ns
          = reply.ns.map (fun r => { r with ttl := min r.ttl C }) ∧
      (rewriteToMinimalTTLs reply C).extra
          = reply.extra.map (fun r =>
              if r.rrtype = typeOPT then r else { r with ttl := min r.ttl C }) ∧
      List.Forall₂ (fun r s => s.ttl ≤ r.ttl) reply.answer (rewriteToMinimalTTLs reply C).answer ∧
      List.Forall₂ (fun r s => s.ttl ≤ r.ttl) reply.ns (rewriteToMinimalTTLs reply C).ns ∧
      List.Forall₂ (fun r s => s.ttl ≤ r.ttl) reply.extra (rewriteToMinimalTTLs reply C).extra) ∧
    (∃ res, serveDNS pools env req minTTL flag0 fails0 (fuel + 1) = some res ∧
      res.trace.writes =
        [if (urlInitialInProgress flag0 (pools.map (fun p => p.initialCount))).1 then
            rewriteToMinimalTTLs rep minTTL
          else rep]) := by
  constructor
  · intro reply C
    refine ⟨by simp [rewriteToMinimalTTLs, clampRR, MinUint32],
      by simp [rewriteToMinimalTTLs, clampRR, MinUint32],
      by simp [rewriteToMinimalTTLs, clampRR, MinUint32, ite_not], ?_, ?_, ?_⟩
    · exact forall2_ttl_le_map reply.answer (clampRR C)
        (fun r => by simp [clampRR, MinUint32])
    · exact forall2_ttl_le_map reply.ns (clampRR C)
        (fun r => by simp [clampRR, MinUint32])
    · exact forall2_ttl_le_map reply.extra _
        (fun r => by
          by_cases h : r.rrtype ≠ typeOPT <;> simp [h, clampRR, MinUint32])
  · by_cases hw : warnCond (some rep) host.transport
    · simp [serveDNS, hm, outerLoop, innerLoop, hsel, herr, hrep, hok, hw, defaultTimeout,
        Trace.empty]
    · simp [serveDNS, hm, outerLoop, innerLoop, hsel, herr, hrep, hok, hw, defaultTimeout,
        Trace.empty]

/-- C7 witness: delivering a valid reply through a pool whose initial
population is still in progress writes the clamped reply; the clamp on
the TTL example of the spec gives [10, 300, 300] and leaves the OPT
record untouched. -/
theorem rewriteToMinimalTTLs_clamp_witness :
    (serveDNS [poolLoading] envOk reqEx 5 false (fun _ => 0) 1).map (fun r => r.trace.writes)
      = some [rewriteToMinimalTTLs repEx 5] ∧
    (rewriteToMinimalTTLs msgTTL 300).answer = [⟨1, 10⟩, ⟨1, 300⟩, ⟨1, 300⟩] ∧
    (rewriteToMinimalTTLs msgTTL 300).extra = [⟨41, 200⟩] := by
  obtain ⟨hpure, res, hres, hwrites⟩ :=
    rewriteToMinimalTTLs_clamp [poolLoading] envOk reqEx 5 false (fun _ => 0)
      poolLoading hostPlain repEx 0 rfl rfl rfl rfl rfl
  refine ⟨?_, by decide, by decide⟩
  rw [hres]
  simp only [Option.map_some', Option.some.injEq]
  rw [hwrites]
  simp [urlInitialInProgress, poolLoading]

/-- C9 counterexample: with a transport that neither forces TCP nor
prefers UDP, a truncated reply produces no log at all (the code logs
the truncation TODO warning only when prefer_udp is configured), so the
claim that the truncation is logged in this configuration is false. -/
theorem truncation_not_logged_when_neither :
    (innerLoop envTrunc hostPlain 1 0 0 Trace.empty).map (fun r => r.2.2.2.2.warns)
        = some [] ∧
    (innerLoop envTrunc hostPlain 1 0 0 Trace.empty).map (fun r => r.2.2.1)
        = some (some repTrunc) ∧
    repTrunc.truncated = true ∧
    hostPlain.transport.forceTcp = false ∧ hostPlain.transport.preferUdp = false := by
  decide

/-- C9 (amended): on any non-closed-connection exchange result the
inner loop exits after that single attempt regardless of the truncation
flag, handing the reply back unchanged and performing no TCP retry; the
truncation warning is logged exactly when the reply is truncated and
the transport does not force TCP and prefers UDP-with-fallback (so with
neither flag set, nothing is logged and the truncation is silently
informational). -/
theorem truncation_informational (env : Env) (host : UpstreamHost) (now exIdx : Nat)
    (tr : Trace) (fuel : Nat)
    (hne : (env.exch exIdx).err ≠ some GoErr.cachedConnClosed) :
    innerLoop env host (fuel + 1) now exIdx tr =
      some (now + (env.exch exIdx).dur, exIdx + 1, (env.exch exIdx).reply,
        (env.exch exIdx).err,
        if warnCond (env.exch exIdx).reply host.transport then
          { tr with exchanges := tr.exchanges ++ [host.id], warns := tr.warns ++ [host.id] }
        else { tr with exchanges := tr.exchanges ++ [host.id] }) ∧
    (∀ rep, (env.exch exIdx).reply = some rep →
      warnCond (env.exch exIdx).reply host.transport
        = (rep.truncated && !host.transport.forceTcp && host.transport.preferUdp)) := by
  refine ⟨innerLoop_exit env host fuel now exIdx tr hne, ?_⟩
  intro rep h
  rw [h]
  rfl

/-- C9 witness: a truncated reply on a preferUdp host exits the inner
loop after one attempt with the reply unchanged and the warning
logged. -/
theorem truncation_informational_witness :
    innerLoop envTruncPreferUdp hostPreferUdp (0 + 1) 0 0 Trace.empty =
      some (0 + (envTruncPreferUdp.exch 0).dur, 0 + 1, (envTruncPreferUdp.exch 0).reply,
        (envTruncPreferUdp.exch 0).err,
        if warnCond (envTruncPreferUdp.exch 0).reply hostPreferUdp.transport then
          { Trace.empty with
            exchanges := Trace.empty.exchanges ++ [hostPreferUdp.id]
            warns := Trace.empty.warns ++ [hostPreferUdp.id] }
        else { Trace.empty with exchanges := Trace.empty.exchanges ++ [hostPreferUdp.id] }) ∧
    warnCond (envTruncPreferUdp.exch 0).reply hostPreferUdp.transport
      = (repTrunc.truncated && !hostPreferUdp.transport.forceTcp
          && hostPreferUdp.transport.preferUdp) := by
  have h := truncation_informational envTruncPreferUdp hostPreferUdp 0 0 Trace.empty 0
    (by decide)
  exact ⟨h.1, h.2 repTrunc rfl⟩

/-- Running the inner exchange loop over K closed-connection results
followed by one non-closed result: K + 1 exchanges happen, all on the
same host, and the loop hands back the final reply and error. -/
theorem innerLoop_closed_run (env : Env) (host : UpstreamHost) :
    ∀ (K s now : Nat) (tr : Trace) (fuel : Nat),
      (∀ i, i < K → (env.exch (s + i)).err = some GoErr.cachedConnClosed) →
      (env.exch (s + K)).err ≠ some GoErr.cachedConnClosed →
      K < fuel →
      ∃ now2, innerLoop env host fuel now s tr =
        some (now2, s + K + 1, (env.exch (s + K)).reply, (env.exch (s + K)).err,
          if warnCond (env.exch (s + K)).reply host.transport then
            { tr with
              exchanges := tr.exchanges ++ List.replicate (K + 1) host.id
              warns := tr.warns ++ [host.id] }
          else { tr with exchanges := tr.exchanges ++ List.replicate (K + 1) host.id }) := by
  intro K
  induction K with
  | zero =>
    intro s now tr fuel hclosed hne hfuel
    obtain ⟨f, rfl⟩ : ∃ f, fuel = f + 1 := ⟨fuel - 1, by omega⟩
    refine ⟨now + (env.exch (s + 0)).dur, ?_⟩
    rw [show s + 0 = s from rfl] at hne ⊢
    rw [innerLoop_exit env host f now s tr hne]
    simp
  | succ K ih =>
    intro s now tr fuel hclosed hne hfuel
    obtain ⟨f, rfl⟩ : ∃ f, fuel = f + 1 := ⟨fuel - 1, by omega⟩
    have h0 : (env.exch s).err = some GoErr.cachedConnClosed := by
      have h := hclosed 0 (by omega)
      simpa using h
    rw [innerLoop_closed_step env host f now s tr h0]
    have hcl : ∀ i, i < K → (env.exch (s + 1 + i)).err = some GoErr.cachedConnClosed := by
      intro i hi
      have h := hclosed (i + 1) (by omega)
      rw [show s + 1 + i = s + (i + 1) by omega]
      exact h
    have hne1 : (env.exch (s + 1 + K)).err ≠ some GoErr.cachedConnClosed := by
      rw [show s + 1 + K = s + (K + 1) by omega]
      exact hne
    obtain ⟨now2, hrun⟩ := ih (s + 1) (now + (env.exch s).dur)
      { tr with exchanges := tr.exchanges ++ [host.id] } f hcl hne1 (by omega)
    refine ⟨now2, ?_⟩
    rw [hrun]
    have hidx : s + 1 + K = s + (K + 1) := by omega
    simp [hidx, List.replicate_succ]

/-- C1: against a host whose Exchange reports errCachedConnClosed for
the first K attempts and then succeeds, the dispatch loop performs
exactly K + 1 Exchange calls, all on that same single selected host
(exactly one Select happened), and no failure counter is incremented
and no liveness probe fires for any of the closed-connection results. -/
theorem serveDNS_closedConn_retry_count
    (pools : List Pool) (env : Env) (req : Msg) (minTTL : Nat) (flag0 : Bool)
    (fails0 : Nat → Int) (up : Pool) (host : UpstreamHost) (K fuel : Nat)
    (hm : matchPools pools (nameOf req) = some up)
    (hsel : env.sel 0 = some host)
    (hclosed : ∀ i, i < K → (env.exch i).err = some GoErr.cachedConnClosed)
    (hsucc : (env.exch K).err = none)
    (hfuel : K + 1 < fuel) :
    ∃ res, serveDNS pools env req minTTL flag0 fails0 fuel = some res ∧
      res.trace.selects = [some host.id] ∧
      res.trace.exchanges = List.replicate (K + 1) host.id ∧
      res.trace.increments = [] ∧ res.trace.checks = [] := by
  obtain ⟨f, rfl⟩ : ∃ f, fuel = f + 1 := ⟨fuel - 1, by omega⟩
  have hne : (env.exch (0 + K)).err ≠ some GoErr.cachedConnClosed := by
    simp [hsucc]
  obtain ⟨now2, hrun⟩ := innerLoop_closed_run env host K 0 0
    { Trace.empty with selects := Trace.empty.selects ++ [some host.id] } (f + 1)
    (by intro i hi; simpa using hclosed i hi) hne (by omega)
  simp only [serveDNS, hm, outerLoop]
  rw [if_pos (by norm_num [defaultTimeout] : (0 : Nat) < defaultTimeout)]
  rw [hsel]
  simp only [Trace.empty] at hrun ⊢
  rw [hrun]
  have hK : (0 : Nat) + K = K := by omega
  rw [hK] at *
  cases hrep : (env.exch K).reply with
  | none => simp [hsucc, hrep, warnCond]
  | some rep =>
    by_cases hok : env.stMatch rep <;>
      by_cases hw : warnCond (some rep) host.transport <;>
        simp [hsucc, hrep, hok, hw]

/-- C1 witness: two closed-connection results then success yield one
Select, three Exchange calls on host 7 and no counter increment. -/
theorem serveDNS_closedConn_retry_count_witness :
    (serveDNS [poolAll] envClosedTwice reqEx 5 true (fun _ => 0) 4).map
        (fun r => (r.trace.selects, r.trace.exchanges, r.trace.increments, r.trace.checks))
      = some ([some 7], [7, 7, 7], [], []) := by
  obtain ⟨res, hres, hs, hex, hinc, hchk⟩ :=
    serveDNS_closedConn_retry_count [poolAll] envClosedTwice reqEx 5 true (fun _ => 0)
      poolAll hostPlain 2 4 rfl rfl
      (by intro i hi; simp [envClosedTwice, hi]) (by decide) (by omega)
  rw [hres]
  simp [hs, hex, hinc, hchk, hostPlain, List.replicate]

/-- The inner exchange loop never exits while Exchange keeps reporting
errCachedConnClosed: whatever the fuel, no result is produced. -/
theorem innerLoop_closed_forever (env : Env) (host : UpstreamHost)
    (hcc : ∀ n, (env.exch n).err = some GoErr.cachedConnClosed) :
    ∀ (fuel now exIdx : Nat) (tr : Trace), innerLoop env host fuel now exIdx tr = none := by
  intro fuel
  induction fuel with
  | zero => intro now exIdx tr; rfl
  | succ f ih =>
    intro now exIdx tr
    rw [innerLoop_closed_step env host f now exIdx tr (hcc exIdx)]
    exact ih _ _ _

/-- C2 counterexample: a host pool that always has a selectable host
but whose Exchange persistently reports the closed-cached-connection
error.  ServeDNS never returns at all, whatever the fuel: the inner
retry loop never re-checks the deadline, so the request does not
terminate within the 15 s deadline plus one attempt (each attempt here
lasts 1 ms), contradicting the claim for this kind of persistent
failure. -/
theorem serveDNS_closed_forever_diverges :
    ¬ Returns [poolAll] envClosedForever reqEx 5 true (fun _ => 0) := by
  rintro ⟨fuel, res, hres⟩
  have hinner := innerLoop_closed_forever envClosedForever hostPlain (fun n => rfl)
  cases fuel with
  | zero => exact Option.noConfusion hres
  | succ f =>
    rw [show serveDNS [poolAll] envClosedForever reqEx 5 true (fun _ => 0) (f + 1)
        = outerLoop envClosedForever poolAll [(0 : Int)] reqEx defaultTimeout 5 (f + 1)
            ⟨0, 0, 0, none, true, fun _ => 0, Trace.empty⟩ from rfl] at hres
    rw [outerLoop] at hres
    simp only [show envClosedForever.sel 0 = some hostPlain from rfl] at hres
    rw [if_pos (by norm_num [defaultTimeout] : (0 : Nat) < defaultTimeout)] at hres
    simp only [hinner] at hres
    exact Option.noConfusion hres

/-- One full failing iteration of the outer loop: guard holds, a host
is selected, the single exchange fails with a non-closed error, health
accounting runs, and the loop continues with the clock advanced by the
attempt duration, the counters advanced, and the error recorded. -/
theorem outerLoop_error_step (env : Env) (up : Pool) (counts : List Int) (req : Msg)
    (dl minTTL f : Nat) (st : LoopSt) (host : UpstreamHost) (e : GoErr)
    (hguard : st.now < dl)
    (hhost : env.sel st.selIdx = some host)
    (hne : (env.exch st.exIdx).err ≠ some GoErr.cachedConnClosed)
    (he : (env.exch st.exIdx).err = some e) :
    ∃ fl tr2, outerLoop env up counts req dl minTTL (f + 1) st =
      outerLoop env up counts req dl minTTL f
        { now := st.now + (env.exch st.exIdx).dur, selIdx := st.selIdx + 1,
          exIdx := st.exIdx + 1, lastErr := some e, flag := st.flag,
          fails := fl, tr := tr2 } := by
  have key : outerLoop env up counts req dl minTTL (f + 1) st =
      outerLoop env up counts req dl minTTL (f + 1) st := rfl
  conv at key =>
    rhs
    rw [outerLoop, if_pos hguard]
    simp only [hhost]
    rw [innerLoop_exit env host f st.now st.exIdx _ hne]
    simp only [he]
  exact ⟨_, _, key⟩

/-- Termination of the dispatch loop under persistent generic failures:
with hosts always selectable, every exchange failing with a non-closed
error, and every attempt lasting between 1 and d milliseconds, the loop
returns within the deadline plus one attempt duration, with a
server-failure result carrying the error of the last exchange. -/
theorem outerLoop_fail_term (env : Env) (up : Pool) (counts : List Int) (req : Msg)
    (dl minTTL d : Nat)
    (hsel : ∀ n, (env.sel n).isSome = true)
    (herrS : ∀ n, (env.exch n).err ≠ none)
    (herrC : ∀ n, (env.exch n).err ≠ some GoErr.cachedConnClosed)
    (hdur1 : ∀ n, 1 ≤ (env.exch n).dur)
    (hdurd : ∀ n, (env.exch n).dur ≤ d) :
    ∀ (fuel : Nat) (st : LoopSt),
      1 ≤ fuel →
      dl + 1 ≤ st.now + fuel →
      st.now < dl + d →
      (st.lastErr = none → st.now < dl) →
      (∀ e, st.lastErr = some e → 1 ≤ st.exIdx ∧ (env.exch (st.exIdx - 1)).err = some e) →
      ∃ res, outerLoop env up counts req dl minTTL fuel st = some res ∧
        (∃ e, res.out = SDOut.ret rcodeServerFailure (some e) ∧
          1 ≤ res.exIdx ∧ (env.exch (res.exIdx - 1)).err = some e) ∧
        res.now < dl + d := by
  intro fuel
  induction fuel with
  | zero => intro st h1 _ _ _ _; exact absurd h1 (by omega)
  | succ f ih =>
    intro st h1 hfuel hnow hlnone hlsome
    by_cases hguard : st.now < dl
    · obtain ⟨host, hhost⟩ : ∃ h, env.sel st.selIdx = some h := by
        cases hE : env.sel st.selIdx with
        | none => have h := hsel st.selIdx; rw [hE] at h; exact absurd h (by simp)
        | some h => exact ⟨h, rfl⟩
      obtain ⟨e, he⟩ : ∃ e, (env.exch st.exIdx).err = some e := by
        cases hE : (env.exch st.exIdx).err with
        | none => exact absurd hE (herrS st.exIdx)
        | some e => exact ⟨e, rfl⟩
      obtain ⟨fl, tr2, hstep⟩ := outerLoop_error_step env up counts req dl minTTL f st host e
        hguard hhost (herrC st.exIdx) he
      rw [hstep]
      have hd1 := hdur1 st.exIdx
      have hdd := hdurd st.exIdx
      obtain ⟨res, hres, hout, hlt⟩ := ih
        { now := st.now + (env.exch st.exIdx).dur, selIdx := st.selIdx + 1,
          exIdx := st.exIdx + 1, lastErr := some e, flag := st.flag,
          fails := fl, tr := tr2 }
        (by omega) (by simp; omega) (by simp; omega)
        (by intro h; exact Option.noConfusion h)
        (by intro e0 h0
            have : e = e0 := by simpa using h0
            subst this
            exact ⟨Nat.succ_le_succ (Nat.zero_le _), by simpa using he⟩)
      exact ⟨res, hres, hout, hlt⟩
    · obtain ⟨e, he⟩ : ∃ e, st.lastErr = some e := by
        cases hE : st.lastErr with
        | none => exact absurd (hlnone hE) hguard
        | some e => exact ⟨e, rfl⟩
      obtain ⟨hi1, hi2⟩ := hlsome e he
      rw [outerLoop, if_neg hguard]
      simp only [he]
      exact ⟨_, rfl, ⟨e, rfl, hi1, hi2⟩, by simpa using hnow⟩

/-- C2 (amended): with the fixed 15 s deadline, against a pool that
always has a selectable host and whose Exchange calls always fail with
a generic (non-closed-connection) transport error, each attempt taking
between 1 ms and d ms, ServeDNS terminates (fuel deadline + 1 suffices)
at a clock strictly below deadline + d (the deadline plus the duration
of one exchange attempt), returning rcode server failure carrying the
last observed transport error.  The original claim is false for the
closed-cached-connection error, for which the run never terminates. -/
theorem serveDNS_deadline_bound_generic
    (pools : List Pool) (env : Env) (req : Msg) (minTTL : Nat) (flag0 : Bool)
    (fails0 : Nat → Int) (up : Pool) (d : Nat)
    (hm : matchPools pools (nameOf req) = some up)
    (hsel : ∀ n, (env.sel n).isSome = true)
    (herrS : ∀ n, (env.exch n).err ≠ none)
    (herrC : ∀ n, (env.exch n).err ≠ some GoErr.cachedConnClosed)
    (hdur1 : ∀ n, 1 ≤ (env.exch n).dur)
    (hdurd : ∀ n, (env.exch n).dur ≤ d) :
    ∃ res, serveDNS pools env req minTTL flag0 fails0 (defaultTimeout + 1) = some res ∧
      (∃ e, res.out = SDOut.ret rcodeServerFailure (some e) ∧
        1 ≤ res.exIdx ∧ (env.exch (res.exIdx - 1)).err = some e) ∧
      res.now < defaultTimeout + d := by
  simp only [serveDNS, hm]
  exact outerLoop_fail_term env up (pools.map (fun p => p.initialCount)) req defaultTimeout
    minTTL d hsel herrS herrC hdur1 hdurd (defaultTimeout + 1)
    ⟨0, 0, 0, none, flag0, fails0, Trace.empty⟩
    (by omega) (by simp) (by norm_num [defaultTimeout])
    (by intro _; norm_num [defaultTimeout])
    (by intro e h; exact Option.noConfusion h)

/-- C2 witness: the always-generically-failing environment with 1 ms
attempts terminates below 15001 ms with the server-failure result. -/
theorem serveDNS_deadline_bound_generic_witness :
    ∃ res, serveDNS [poolAll] envGenericFailFast reqEx 5 true (fun _ => 0)
        (defaultTimeout + 1) = some res ∧
      (∃ e, res.out = SDOut.ret rcodeServerFailure (some e) ∧
        1 ≤ res.exIdx ∧ (envGenericFailFast.exch (res.exIdx - 1)).err = some e) ∧
      res.now < defaultTimeout + 1 := by
  exact serveDNS_deadline_bound_generic [poolAll] envGenericFailFast reqEx 5 true
    (fun _ => 0) poolAll 1 rfl (fun n => rfl)
    (fun n => by simp [envGenericFailFast]) (fun n => by simp [envGenericFailFast])
    (fun n => le_refl 1) (fun n => le_refl 1)

/-- The inner exchange loop never touches the writes component of the
trace. -/
theorem innerLoop_writes_eq (env : Env) (host : UpstreamHost) :
    ∀ (fuel now exIdx : Nat) (tr : Trace) (out : Nat × Nat × Option Msg × Option GoErr × Trace),
      innerLoop env host fuel now exIdx tr = some out →
      out.2.2.2.2.writes = tr.writes := by
  intro fuel
  induction fuel with
  | zero => intro now exIdx tr out h; exact Option.noConfusion h
  | succ f ih =>
    intro now exIdx tr out h
    rw [innerLoop] at h
    by_cases hcc : (env.exch exIdx).err = some GoErr.cachedConnClosed
    · simp only [hcc, ite_true, if_pos] at h
      have h2 := ih _ _ _ _ h
      simpa using h2
    · by_cases hw : warnCond (env.exch exIdx).reply host.transport <;>
        · simp only [hcc, hw, ite_false, ite_true, Option.some.injEq] at h
          subst h
          rfl

/-- Health-check escalation never touches the writes component of the
trace. -/
theorem hcApply_writes_eq (up : Pool) (host : UpstreamHost) (fails : Nat → Int)
    (tr : Trace) : (hcApply up host fails tr).2.writes = tr.writes := by
  unfold hcApply
  cases healthCheck up.checkInterval up.maxFails (fails host.id) <;> rfl

/-- Dispatch-loop invariant behind C10: starting from a trace with no
write yet, a run that ends with at least one write returned (0, nil). -/
theorem outerLoop_write_invariant (env : Env) (up : Pool) (counts : List Int) (req : Msg)
    (dl minTTL : Nat) :
    ∀ (fuel : Nat) (st : LoopSt) (res : RunRes),
      outerLoop env up counts req dl minTTL fuel st = some res →
      st.tr.writes = [] →
      res.trace.writes ≠ [] →
      res.out = SDOut.ret 0 none := by
  intro fuel
  induction fuel with
  | zero => intro st res h _ _; exact Option.noConfusion h
  | succ f ih =>
    intro st res hres hempty hw
    rw [outerLoop] at hres
    by_cases hguard : st.now < dl
    · rw [if_pos hguard] at hres
      cases hsel : env.sel st.selIdx with
      | none =>
        simp only [hsel, Option.some.injEq] at hres
        subst hres
        exact absurd hempty hw
      | some host =>
        simp only [hsel] at hres
        cases hinner : innerLoop env host (f + 1) st.now st.exIdx
            { st.tr with selects := st.tr.selects ++ [some host.id] } with
        | none => rw [hinner] at hres; exact Option.noConfusion hres
        | some out =>
          obtain ⟨now1, exIdx1, reply, err, tr1⟩ := out
          have htr1 : tr1.writes = [] := by
            have h := innerLoop_writes_eq env host (f + 1) st.now st.exIdx
              { st.tr with selects := st.tr.selects ++ [some host.id] }
              (now1, exIdx1, reply, err, tr1) hinner
            simpa [hempty] using h
          simp only [hinner] at hres
          cases err with
          | some e =>
            refine ih _ res hres ?_ hw
            by_cases hmf : up.maxFails = 0
            · simpa [hmf] using htr1
            · simpa [hmf, hcApply_writes_eq] using htr1
          | none =>
            cases reply with
            | none =>
              simp only [Option.some.injEq] at hres
              subst hres
              exact absurd htr1 hw
            | some rep =>
              by_cases hok : env.stMatch rep
              · simp [hok] at hres
                subst hres
                rfl
              · simp [hok] at hres
                subst hres
                rfl
    · rw [if_neg hguard] at hres
      cases hE : st.lastErr with
      | none =>
        simp only [hE, Option.some.injEq] at hres
        subst hres
        exact absurd hempty hw
      | some e =>
        simp only [hE, Option.some.injEq] at hres
        subst hres
        exact absurd hempty hw

/-- C10: whenever the router itself wrote a reply (a delivered valid
upstream reply or the locally synthesized FORMERR reply), ServeDNS
returns status code 0 and a nil error to the plugin chain; in
particular the FORMERR path reports success at the handler interface
instead of propagating a format-error or server-failure status. -/
theorem serveDNS_write_implies_success
    (pools : List Pool) (env : Env) (req : Msg) (minTTL : Nat) (flag0 : Bool)
    (fails0 : Nat → Int) (fuel : Nat) (res : RunRes)
    (h : serveDNS pools env req minTTL flag0 fails0 fuel = some res)
    (hw : res.trace.writes ≠ []) :
    res.out = SDOut.ret 0 none := by
  unfold serveDNS at h
  cases hm : matchPools pools (nameOf req) with
  | none =>
    simp only [hm, Option.some.injEq] at h
    subst h
    exact absurd (by rfl : Trace.empty.writes = []) hw
  | some up =>
    simp only [hm] at h
    exact outerLoop_write_invariant env up (pools.map (fun p => p.initialCount)) req
      defaultTimeout minTTL fuel _ res h rfl hw

/-- C10 witness: a concrete delivered-reply run writes once and returns
(0, nil). -/
theorem serveDNS_write_implies_success_witness :
    ∃ res, serveDNS [poolAll] envOk reqEx 5 true (fun _ => 0) 1 = some res ∧
      res.out = SDOut.ret 0 none := by
  refine ⟨_, rfl, ?_⟩
  exact serveDNS_write_implies_success [poolAll] envOk reqEx 5 true (fun _ => 0) 1 _
    rfl (by decide)

/-- First-match over the concatenation shape pre ++ A :: rest: when no
pool of the prefix matches and A does, the scan returns A. -/
theorem find?_first (q : Pool → Bool) :
    ∀ (pre rest : List Pool) (A : Pool),
      (∀ p ∈ pre, q p = false) → q A = true →
      (pre ++ A :: rest).find? q = some A := by
  intro pre
  induction pre with
  | nil => intro rest A _ hA; simpa using List.find?_cons_of_pos rest hA
  | cons p t ih =>
    intro rest A hpre hA
    have hp : ¬ q p = true := by simp [hpre p (by simp)]
    rw [List.cons_append, List.find?_cons_of_neg _ hp]
    exact ih rest A (fun x hx => hpre x (by simp [hx])) hA

/-- C5: match normalizes the query name (stripping the trailing dot
when the byte length exceeds 1) and returns the first pool of the
ordered list whose matcher accepts the normalized name; when pool A
precedes pool B and both match, A is returned.  When no pool matches,
ServeDNS delegates to the next handler in the chain, returning its
result with zero Select calls and zero Exchange calls. -/
theorem match_first_pool_and_delegate :
    (∀ (pools : List Pool) (name : String),
      matchPools pools name = pools.find? (fun u => u.Match (normalizeName name))) ∧
    (∀ (pre mid post : List Pool) (A B : Pool) (name : String),
      (∀ p ∈ pre, p.Match (normalizeName name) = false) →
      A.Match (normalizeName name) = true →
      B.Match (normalizeName name) = true →
      matchPools (pre ++ A :: (mid ++ B :: post)) name = some A) ∧
    (∀ (pools : List Pool) (env : Env) (req : Msg) (minTTL : Nat) (flag0 : Bool)
        (fails0 : Nat → Int) (fuel : Nat),
      matchPools pools (nameOf req) = none →
      serveDNS pools env req minTTL flag0 fails0 fuel =
        some ⟨SDOut.delegated env.nextCode env.nextErr, Trace.empty, 0, 0, 0, flag0, none⟩) := by
  refine ⟨fun pools name => rfl, ?_, ?_⟩
  · intro pre mid post A B name hpre hA _
    exact find?_first (fun u => u.Match (normalizeName name)) pre (mid ++ B :: post) A hpre hA
  · intro pools env req minTTL flag0 fails0 fuel hm
    simp [serveDNS, hm]

/-- C5 witness: with an ordered list never-matching, first-matching,
second-matching, the first matching pool wins; and a request matching
no pool delegates to the next plugin with an empty trace. -/
theorem match_first_pool_and_delegate_witness :
    matchPools [poolNever, poolFirst, poolSecond] (nameOf reqEx) = some poolFirst ∧
    serveDNS [poolNever] envOk reqEx 5 true (fun _ => 0) 3 =
      some ⟨SDOut.delegated envOk.nextCode envOk.nextErr, Trace.empty, 0, 0, 0, true, none⟩ := by
  have h := match_first_pool_and_delegate
  constructor
  · have h2 := h.2.1 [poolNever] [] [] poolFirst poolSecond (nameOf reqEx)
      (by intro p hp
          simp only [List.mem_singleton] at hp
          subst hp
          rfl)
      rfl rfl
    simpa using h2
  · exact h.2.2 [poolNever] envOk reqEx 5 true (fun _ => 0) 3 rfl

end Dnsredir
